import Mathlib

/-!
Shallow embedding of the `typed_di` dependency-injection engine
(`src/typed_di/_create.py`, `_contexts.py`, `_scope.py`, `_utils.py`,
`_depends.py`).

Modelling conventions:
* A producer ("factory") is an identity-comparable handle, modelled by a
  numeric id `FId`; an environment `Env` maps ids to their declarations.
* Runtime type inspection (`awaitable_factory_count_nesting_levels`,
  `cm_count_nesting_levels`, ...) is modelled by storing the computed
  nesting depths directly on the factory declaration and the requested
  dependency type, as the spec's design notes prescribe for a
  statically-typed reimplementation.  Likewise the runtime `isinstance`
  tests on the produced value (`Awaitable`/`ContextManager`/
  `AsyncContextManager`) are modelled by boolean fields describing the
  value the factory actually returns, and `isinstance(val, expect_type)`
  by a numeric type tag on values.
* Python in-place mutation of caches / exit stacks / the invocation log is
  modelled by explicit state passing: every operation returns
  `St × Except DIErr α`, returning the state reached at the moment an
  exception is raised (Python exceptions do not roll back mutations).
* `CreationContext` (`prev`, `factories_in_stack`) is mutated and restored
  in `try/finally`, hence modelled by plain function arguments.
* The recursion of the engine is made total with a fuel argument; the
  out-of-fuel outcome is a distinguished error that no theorem treats as
  program behaviour.
* The signature-validation layer (`validate_invokable`) is out of scope per
  the spec; factories are taken as pre-validated, their dependency
  parameters given as a list of (requested type, source).
-/

namespace TypedDI

/-- Factory scope tag, `src/typed_di/_scope.py` (`Scope = Literal["app", "handler"]`). -/
inductive Scope where
  | app
  | handler
deriving DecidableEq, Repr

/-- Identity-comparable producer handle. -/
abbrev FId := Nat

/-- A requested dependency type `Depends[T]`: the runtime-checkable tag of `T`
plus the await / sync-cm / async-cm nesting depths of `T`
(`awaitable_count_nesting_levels`, `cm_count_nesting_levels`,
`async_cm_count_nesting_levels` of `_utils.py` applied to the type argument). -/
structure DepType where
  ty_tag : Nat
  await_depth : Nat
  cm_depth : Nat
  acm_depth : Nat
deriving DecidableEq, Repr

/-- A runtime value: its runtime type tag and an identity token (fresh per
construction, so identical tokens model the identical Python object). -/
structure Val where
  ty_tag : Nat
  tok : Nat
deriving DecidableEq, Repr

/-- Source of a declared dependency parameter of a factory: an explicit
`Depends(factory)` default, or a by-name (implicit / bootstrap) parameter. -/
inductive DepSource where
  | factory_ref (fid : FId)
  | name_ref (n : String)
deriving DecidableEq, Repr

/-- Declaration of one factory, as the engine observes it. -/
structure Factory where
  scope : Scope
  /-- `awaitable_factory_count_nesting_levels fn` -/
  await_depth : Nat
  /-- `cm_factory_count_nesting_levels fn` -/
  cm_depth : Nat
  /-- `async_cm_factory_count_nesting_levels fn` -/
  acm_depth : Nat
  /-- whether the value `fn(...)` returns satisfies `isinstance(val, Awaitable)` -/
  ret_awaitable : Bool
  /-- whether it satisfies `isinstance(val, ContextManager)` -/
  ret_cm : Bool
  /-- whether it satisfies `isinstance(val, AsyncContextManager)` -/
  ret_async_cm : Bool
  /-- runtime type tag of the (fully handled) produced value -/
  ret_ty_tag : Nat
  /-- declared dependency parameters, resolved by `resolve_fn_deps` -/
  deps : List (DepType × DepSource)

abbrev Env := FId → Factory

/-- `get_factory_scope`, `src/typed_di/_scope.py` (the `__app_scope__`
attribute is modelled as the stored `scope` field, per the spec's design
notes). -/
def get_factory_scope (env : Env) (fid : FId) : Scope :=
  (env fid).scope

/-- State of a `Depends` marker, `src/typed_di/_depends.py`. -/
inductive DependsState where
  | resolved_state (v : Val)
  | unresolved_state (fid : FId)
deriving DecidableEq, Repr

/-- The `dep_or_name` argument of `create`: a by-name string or a `Depends`
marker. -/
inductive DepOrName where
  | by_name (n : String)
  | marker (st : DependsState)
deriving DecidableEq, Repr

/-- Error taxonomy of `src/typed_di/_exceptions.py` plus the plain
`RuntimeError` / `TypeError` raises of `_create.py`. -/
inductive DIErr where
  /-- `HandlerScopeDepRequestedFromAppScope(dep_type, dep_or_name, c_type)` -/
  | handler_scope_dep_requested_from_app_scope (dep : DepType) (explicit : Bool)
  /-- `RuntimeError("Factories recursion detected ...")` with the cycle trace -/
  | factories_recursion (dep : DepType) (cycle : List FId)
  /-- `ValueFromFactoryAlreadyResolved(dep_type, ., ., requested_as, fn)` -/
  | value_from_factory_already_resolved (dep : DepType) (requested_as : DepType) (fid : FId)
  /-- `ValueFromFactoryWereRequestedUnresolved(dep_type, ., ., requested_as, fn)` -/
  | value_from_factory_were_requested_unresolved (dep : DepType) (requested_as : DepType) (fid : FId)
  /-- `TypeError("Inconsistent type returned by factory ...")` from `_decide_need_action` -/
  | inconsistent_factory_type (fid : FId) (dep : DepType)
  /-- `DependencyByNameNotFound(dep_type, name, "implicit-or-bootstrap")` -/
  | dependency_by_name_not_found (dep : DepType) (n : String)
  /-- `ValueOfUnexpectedTypeReceived(dep_type, ., ., expect_type, type(val))` -/
  | value_of_unexpected_type_received (dep : DepType) (expected : Nat) (actual : Nat)
  /-- `RuntimeError("... resolved depends marker unexpectedly received")` in `create` -/
  | resolved_marker_received (dep : DepType)
  /-- `InvokableDependencyError(fn, creation_error)` raised by `resolve_fn_deps` -/
  | invokable_dependency_error (fid : FId) (inner : DIErr)
  /-- fuel exhaustion artifact of the embedding, not program behaviour -/
  | out_of_fuel
deriving DecidableEq, Repr

/-- Whether an error is a `CreationError` subclass (those are the ones
`resolve_fn_deps` wraps into `InvokableDependencyError`). -/
def is_creation_error : DIErr → Bool
  | .handler_scope_dep_requested_from_app_scope _ _ => true
  | .value_from_factory_already_resolved _ _ _ => true
  | .value_from_factory_were_requested_unresolved _ _ _ => true
  | .dependency_by_name_not_found _ _ => true
  | .value_of_unexpected_type_received _ _ _ => true
  | _ => false

/-- The root context, `RootContext.__init__` (`_contexts.py`): the override
table and the bootstrap values, both merely stored there. -/
structure RootCtx where
  override_factories : List (FId × FId)
  bootstrap_values : List (String × Val)

/-- The context handed to `create`: an `AppContext` (`is_handler = false`) or a
`HandlerContext` (`is_handler = true`), its `_entered` flag, its implicit
factories and (for a handler context) those of its parent app context, and the
root context reachable through `_prev_ctx`. -/
structure Ctx where
  is_handler : Bool
  entered : Bool
  handler_implicit_factories : List (String × FId)
  app_implicit_factories : List (String × FId)
  root : RootCtx

/-- First-match association lookup (Python `dict` access; keys are unique in
all states the engine builds). -/
def assoc_find {α β : Type} [DecidableEq α] : List (α × β) → α → Option β
  | [], _ => none
  | (k, v) :: rest, k' => if k = k' then some v else assoc_find rest k'

/-- `lookup_implicit_factory` (`_contexts.py`): the handler context's mapping
is consulted first, then (walking `_prev_ctx`) the app context's; an app
context consults only its own. -/
def lookup_implicit_factory (ctx : Ctx) (n : String) : Option FId :=
  if ctx.is_handler then
    match assoc_find ctx.handler_implicit_factories n with
    | some fid => some fid
    | none => assoc_find ctx.app_implicit_factories n
  else
    assoc_find ctx.app_implicit_factories n

/-- One cache slot: `(value, requested-as dep type, action-performed flag)`
(`ObjectsCache` in `_contexts.py`). -/
abbrev CacheEntry := Val × DepType × Bool

/-- Mutable engine state: the app / handler caches and exit stacks, the log of
factory invocations (in order), and the fresh-token counter. -/
structure St where
  app_cache : List (FId × CacheEntry)
  handler_cache : List (FId × CacheEntry)
  app_exit_stack : List FId
  handler_exit_stack : List FId
  inv_log : List FId
  next_tok : Nat
deriving DecidableEq, Repr

def St.empty : St := ⟨[], [], [], [], [], 0⟩

/-- Cache of the scope a factory of scope `sc` is stored in
(`get_app_cache` / `get_handler_cache`). -/
def cache_of (s : St) : Scope → List (FId × CacheEntry)
  | .app => s.app_cache
  | .handler => s.handler_cache

/-- Record `cache[fn] = (val, dep_type, action_performed)` in the cache picked
by the factory's scope. -/
def cache_insert (s : St) : Scope → FId → CacheEntry → St
  | .app, fid, e => { s with app_cache := (fid, e) :: s.app_cache }
  | .handler, fid, e => { s with handler_cache := (fid, e) :: s.handler_cache }

/-- `exit_stack.enter_context` / `enter_async_context`: push a release action
onto the exit stack picked by the factory's scope
(`get_app_exit_stack` / `get_handler_exit_stack`). -/
def push_exit (s : St) : Scope → FId → St
  | .app, fid => { s with app_exit_stack := fid :: s.app_exit_stack }
  | .handler, fid => { s with handler_exit_stack := fid :: s.handler_exit_stack }

abbrev EX (α : Type) := Except DIErr α

/-- `_decide_need_action` (`_create.py`): the producer-depth minus
requested-depth delta must be exactly 0 (no action) or 1 (perform the action
once); anything else raises `TypeError`. -/
def decide_need_action (n : Int) (fid : FId) (dep : DepType) : EX Bool :=
  if n = 0 then .ok false
  else if n = 1 then .ok true
  else .error (.inconsistent_factory_type fid dep)

/-- `_dep_need_await`. -/
def dep_need_await (env : Env) (fid : FId) (dep : DepType) : EX Bool :=
  decide_need_action ((env fid).await_depth - (dep.await_depth : Int)) fid dep

/-- `_dep_need_enter`. -/
def dep_need_enter (env : Env) (fid : FId) (dep : DepType) : EX Bool :=
  decide_need_action ((env fid).cm_depth - (dep.cm_depth : Int)) fid dep

/-- `_dep_need_aenter`. -/
def dep_need_aenter (env : Env) (fid : FId) (dep : DepType) : EX Bool :=
  decide_need_action ((env fid).acm_depth - (dep.acm_depth : Int)) fid dep

/-- `any(_dep_need_action(fn, dep_type))`: the three axes evaluated in tuple
order (enter, aenter, await), then disjoined. -/
def dep_need_action_any (env : Env) (fid : FId) (dep : DepType) : EX Bool := do
  let e ← dep_need_enter env fid dep
  let a ← dep_need_aenter env fid dep
  let w ← dep_need_await env fid dep
  pure (e || a || w)

/-- The cycle trace rendered by `create_from_factory`: the repeated factory
followed by the factories pushed after its first occurrence
(`itertools.chain([fn], it)` over the insertion-ordered stack). -/
def cycle_chain (stack : List FId) (fid : FId) : List FId :=
  fid :: (stack.dropWhile (fun f => f ≠ fid)).drop 1

/-- `_render_cache_already_have_value_in_other_form_error`. -/
def render_cache_other_form_error (dep : DepType) (fid : FId) (requested_as : DepType)
    (need_action : Bool) : DIErr :=
  if need_action then .value_from_factory_were_requested_unresolved dep requested_as fid
  else .value_from_factory_already_resolved dep requested_as fid

/-- The immediate-parent cross-scope test of `create_from_factory`:
`prev_factory` is set and is app-scoped while the current factory is
handler-scoped. -/
def cross_scope_parent (env : Env) (sc : Scope) : Option FId → Bool
  | some p => decide (sc = Scope.handler ∧ get_factory_scope env p = Scope.app)
  | none => false

mutual

/-- `create` (`_create.py`): dispatch on by-name string versus explicit
`Depends` marker; a marker in `Resolved` state is rejected outright. -/
def create (env : Env) : Nat → Ctx → DepType → DepOrName →
    List FId → Option FId → St → St × EX Val
  | 0, _, _, _, _, _, s => (s, .error .out_of_fuel)
  | fuel + 1, ctx, dep, don, stack, prev, s =>
    match don with
    | .by_name n =>
      match lookup_implicit_factory ctx n with
      | some fid =>
        -- create_from_implicit_factory_cached: resolve then isinstance-check
        match create_from_factory_cached env fuel ctx dep fid false stack prev s with
        | (s', .error e) => (s', .error e)
        | (s', .ok v) =>
          if v.ty_tag = dep.ty_tag then (s', .ok v)
          else (s', .error (.value_of_unexpected_type_received dep dep.ty_tag v.ty_tag))
      | none =>
        -- create_from_bootstrap_values, with the lookup failure re-rendered
        match assoc_find ctx.root.bootstrap_values n with
        | some v =>
          if v.ty_tag = dep.ty_tag then (s, .ok v)
          else (s, .error (.value_of_unexpected_type_received dep dep.ty_tag v.ty_tag))
        | none => (s, .error (.dependency_by_name_not_found dep n))
    | .marker (.resolved_state _) => (s, .error (.resolved_marker_received dep))
    | .marker (.unresolved_state fid) =>
      create_from_factory_cached env fuel ctx dep fid true stack prev s

/-- `create_from_factory_cached` (`_create.py`): pick the cache owned by the
factory's scope (failing across scopes), probe it — on a hit compare the
recorded action-performed flag with what this request demands — and on a miss
build the value and record it. -/
def create_from_factory_cached (env : Env) : Nat → Ctx → DepType → FId → Bool →
    List FId → Option FId → St → St × EX Val
  | 0, _, _, _, _, _, _, s => (s, .error .out_of_fuel)
  | fuel + 1, ctx, dep, fid, explicit, stack, prev, s =>
    let sc := get_factory_scope env fid
    if sc = .handler ∧ ¬ctx.is_handler then
      (s, .error (.handler_scope_dep_requested_from_app_scope dep explicit))
    else
      match assoc_find (cache_of s sc) fid with
      | some (v, requested_as, action_performed) =>
        match dep_need_action_any env fid dep with
        | .error e => (s, .error e)
        | .ok need_action =>
          if need_action = action_performed then (s, .ok v)
          else (s, .error (render_cache_other_form_error dep fid requested_as need_action))
      | none =>
        match create_from_factory env fuel ctx dep fid explicit stack prev s with
        | (s', .error e) => (s', .error e)
        | (s', .ok (v, action_performed)) =>
          (cache_insert s' sc fid (v, dep, action_performed), .ok v)

/-- `create_from_factory` (`_create.py`): cycle check, scope / exit-stack
selection (failing across scopes), immediate-parent cross-scope check,
recursive resolution of the factory's own dependencies, invocation, and the
shape-directed unwrap of the returned value. -/
def create_from_factory (env : Env) : Nat → Ctx → DepType → FId → Bool →
    List FId → Option FId → St → St × EX (Val × Bool)
  | 0, _, _, _, _, _, _, s => (s, .error .out_of_fuel)
  | fuel + 1, ctx, dep, fid, explicit, stack, prev, s =>
    if fid ∈ stack then
      (s, .error (.factories_recursion dep (cycle_chain stack fid)))
    else
      let sc := get_factory_scope env fid
      if sc = .handler ∧ ¬ctx.is_handler then
        (s, .error (.handler_scope_dep_requested_from_app_scope dep explicit))
      else if cross_scope_parent env sc prev then
        (s, .error (.handler_scope_dep_requested_from_app_scope dep explicit))
      else
        match resolve_fn_deps env fuel ctx fid (env fid).deps (stack ++ [fid]) (some fid) s with
        | (s', .error e) => (s', .error e)
        | (s', .ok _) =>
          -- val = fn(**fn_args)
          let v : Val := ⟨(env fid).ret_ty_tag, s'.next_tok⟩
          let s2 : St := { s' with inv_log := s'.inv_log ++ [fid], next_tok := s'.next_tok + 1 }
          -- if isinstance(val, Awaitable) and _dep_need_await(...):
          match (if (env fid).ret_awaitable then dep_need_await env fid dep else .ok false) with
          | .error e => (s2, .error e)
          | .ok true => (s2, .ok (v, true))
          | .ok false =>
            -- elif isinstance(val, ContextManager) and _dep_need_enter(...):
            match (if (env fid).ret_cm then dep_need_enter env fid dep else .ok false) with
            | .error e => (s2, .error e)
            | .ok true => (push_exit s2 sc fid, .ok (v, true))
            | .ok false =>
              -- elif isinstance(val, AsyncContextManager) and _dep_need_aenter(...):
              match (if (env fid).ret_async_cm then dep_need_aenter env fid dep else .ok false) with
              | .error e => (s2, .error e)
              | .ok true => (push_exit s2 sc fid, .ok (v, true))
              | .ok false => (s2, .ok (v, false))

/-- `resolve_fn_deps` (`_invoke.py`): resolve each declared dependency in
order through `create`, wrapping `CreationError`s into
`InvokableDependencyError` for the owning factory. -/
def resolve_fn_deps (env : Env) : Nat → Ctx → FId → List (DepType × DepSource) →
    List FId → Option FId → St → St × EX Unit
  | 0, _, _, _, _, _, s => (s, .error .out_of_fuel)
  | _ + 1, _, _, [], _, _, s => (s, .ok ())
  | fuel + 1, ctx, owner, (d, src) :: rest, stack, prev, s =>
    let don : DepOrName :=
      match src with
      | .factory_ref f => .marker (.unresolved_state f)
      | .name_ref n => .by_name n
    match create env fuel ctx d don stack prev s with
    | (s', .error e) =>
      (s', .error (if is_creation_error e then .invokable_dependency_error owner e else e))
    | (s', .ok _) => resolve_fn_deps env fuel ctx owner rest stack prev s'

end

/-! Context lifecycle, `src/typed_di/_contexts.py` (`_BaseContext`). -/

/-- The `_entered` / `_exited` flags of `_BaseContext` (the `_exited` flag is
initialised and never touched again, exactly as in the source). -/
structure ContextFlags where
  entered : Bool
  exited : Bool
deriving DecidableEq, Repr

/-- `_BaseContext.__init__`. -/
def context_init : ContextFlags := ⟨false, false⟩

/-- Entry half of `_BaseContext._enter`: fail if already entered, else mark
entered. -/
def context_enter (c : ContextFlags) : Except String ContextFlags :=
  if c.entered then .error "already entered"
  else .ok { c with entered := true }

/-- Exit half of `_BaseContext._enter` (the `finally` block): clear the
entered flag. -/
def context_exit (c : ContextFlags) : ContextFlags :=
  { c with entered := false }

/-- `check_context_entered` (`_contexts.py`). -/
def check_context_entered (entered : Bool) : Except String Unit :=
  if entered then .ok ()
  else .error "Attempt to operate on unentered context"

/-! Concrete fixtures used by witnesses, counterexamples and code-evaluation
theorems. -/

/-- A synchronous factory returning a plain (non-awaitable, non-cm) value of
the given type tag. -/
def plain_factory (sc : Scope) (tag : Nat) (ds : List (DepType × DepSource)) : Factory :=
  ⟨sc, 0, 0, 0, false, false, false, tag, ds⟩

/-- A request for a plain `Depends[T]` with type tag `tag`. -/
def plain_dep (tag : Nat) : DepType := ⟨tag, 0, 0, 0⟩

/-- An entered `HandlerContext` with no implicit factories and an empty root. -/
def handler_ctx : Ctx := ⟨true, true, [], [], ⟨[], []⟩⟩

/-- An entered `AppContext` with no implicit factories and an empty root. -/
def app_ctx : Ctx := ⟨false, true, [], [], ⟨[], []⟩⟩

/-- Environment with a single kind of handler-scoped plain factory. -/
def env_plain_handler : Env := fun _ => plain_factory .handler 7 []

/-- Claim C10: `create` rejects a `Depends` marker already in the `Resolved`
state with a `RuntimeError`, before consulting caches or invoking anything:
the public entry point only accepts unresolved markers or by-name strings. -/
theorem create_rejects_resolved_marker (env : Env) (fuel : Nat) (ctx : Ctx)
    (dep : DepType) (v : Val) (stack : List FId) (prev : Option FId) (s : St) :
    create env (fuel + 1) ctx dep (.marker (.resolved_state v)) stack prev s
      = (s, .error (.resolved_marker_received dep)) := by
  simp [create]

/-- Claim C3: a handler-scoped ("Request"-scoped) factory requested while the
active context is an `AppContext` fails in `create_from_factory_cached` with
`HandlerScopeDepRequestedFromAppScope`, with the state unchanged (nothing
constructed, nothing cached). -/
theorem handler_dep_from_app_ctx_fails (env : Env) (fuel : Nat) (ctx : Ctx)
    (dep : DepType) (fid : FId) (explicit : Bool) (stack : List FId)
    (prev : Option FId) (s : St)
    (hscope : get_factory_scope env fid = .handler)
    (hctx : ctx.is_handler = false) :
    create_from_factory_cached env (fuel + 1) ctx dep fid explicit stack prev s
      = (s, .error (.handler_scope_dep_requested_from_app_scope dep explicit)) := by
  simp [create_from_factory_cached, hscope, hctx]

/-- Witness for C3 at a concrete input: an `AppContext`, a handler-scoped
factory. -/
theorem handler_dep_from_app_ctx_fails_witness :
    get_factory_scope env_plain_handler 0 = .handler ∧ app_ctx.is_handler = false ∧
    create_from_factory_cached env_plain_handler 1 app_ctx (plain_dep 7) 0 true [] none St.empty
      = (St.empty, .error (.handler_scope_dep_requested_from_app_scope (plain_dep 7) true)) :=
  ⟨rfl, rfl,
    handler_dep_from_app_ctx_fails env_plain_handler 0 app_ctx (plain_dep 7) 0 true [] none
      St.empty rfl rfl⟩

/-- Claim C5: reaching a factory that is already in the construction chain
makes `create_from_factory` fail before invoking it (state unchanged, so no
invocation is logged), with the cycle trace starting at the first occurrence
of the repeated factory in the insertion-ordered chain. -/
theorem factory_cycle_detected (env : Env) (fuel : Nat) (ctx : Ctx)
    (dep : DepType) (fid : FId) (explicit : Bool) (stack : List FId)
    (prev : Option FId) (s : St)
    (hmem : fid ∈ stack) :
    create_from_factory env (fuel + 1) ctx dep fid explicit stack prev s
      = (s, .error (.factories_recursion dep (cycle_chain stack fid))) := by
  simp [create_from_factory, hmem]

/-- Witness for C5 at a concrete input: the chain `f = 2 → g = 3 → f = 2`
reports the cycle `[2, 3]`, i.e. starts at the first repeated factory. -/
theorem factory_cycle_detected_witness :
    (2 : FId) ∈ [2, 3] ∧ cycle_chain [2, 3] 2 = [2, 3] ∧
    create_from_factory env_plain_handler 1 handler_ctx (plain_dep 7) 2 true [2, 3] (some 3) St.empty
      = (St.empty, .error (.factories_recursion (plain_dep 7) [2, 3])) := by
  refine ⟨by decide, by decide, ?_⟩
  have h := factory_cycle_detected env_plain_handler 0 handler_ctx (plain_dep 7) 2 true
    [2, 3] (some 3) St.empty (by decide)
  simpa [cycle_chain] using h


/-- Characterisation of `_decide_need_action`: `ok false` iff the depth delta
is 0, `ok true` iff it is 1, and the `TypeError` iff the delta is outside
`{0, 1}`. -/
theorem decide_need_action_spec (n : Int) (fid : FId) (dep : DepType) :
    (∀ b : Bool, decide_need_action n fid dep = .ok b ↔ n = (if b then 1 else 0)) ∧
    (decide_need_action n fid dep = .error (.inconsistent_factory_type fid dep) ↔
      (n ≠ 0 ∧ n ≠ 1)) := by
  unfold decide_need_action
  constructor
  · intro b
    split_ifs with h0 h1 <;> cases b <;> simp_all
  · split_ifs with h0 h1 <;> simp_all

/-- Claim C9: on each of the three wrap axes (awaitable, sync scoped-resource,
async scoped-resource) the producer-declared depth minus the requested depth
must be exactly 0 (no action) or 1 (perform the action once); any other delta
makes the axis analyser report the producer-declaration consistency
`TypeError` instead of returning an answer. -/
theorem shape_delta_must_be_zero_or_one (env : Env) (fid : FId) (dep : DepType) :
    (∀ b : Bool, dep_need_await env fid dep = .ok b ↔
      ((env fid).await_depth : Int) - dep.await_depth = (if b then 1 else 0)) ∧
    (dep_need_await env fid dep = .error (.inconsistent_factory_type fid dep) ↔
      (((env fid).await_depth : Int) - dep.await_depth ≠ 0 ∧
       ((env fid).await_depth : Int) - dep.await_depth ≠ 1)) ∧
    (∀ b : Bool, dep_need_enter env fid dep = .ok b ↔
      ((env fid).cm_depth : Int) - dep.cm_depth = (if b then 1 else 0)) ∧
    (dep_need_enter env fid dep = .error (.inconsistent_factory_type fid dep) ↔
      (((env fid).cm_depth : Int) - dep.cm_depth ≠ 0 ∧
       ((env fid).cm_depth : Int) - dep.cm_depth ≠ 1)) ∧
    (∀ b : Bool, dep_need_aenter env fid dep = .ok b ↔
      ((env fid).acm_depth : Int) - dep.acm_depth = (if b then 1 else 0)) ∧
    (dep_need_aenter env fid dep = .error (.inconsistent_factory_type fid dep) ↔
      (((env fid).acm_depth : Int) - dep.acm_depth ≠ 0 ∧
       ((env fid).acm_depth : Int) - dep.acm_depth ≠ 1)) :=
  ⟨(decide_need_action_spec _ fid dep).1, (decide_need_action_spec _ fid dep).2,
   (decide_need_action_spec _ fid dep).1, (decide_need_action_spec _ fid dep).2,
   (decide_need_action_spec _ fid dep).1, (decide_need_action_spec _ fid dep).2⟩

/-- Claim C6 (evaluation of the code at the failing input): entering a context
that is currently entered does fail, but after the guarded lifetime exits the
entered flag is simply reset (the `_exited` flag is never consulted), so
entering the same instance again succeeds — the source does not prevent
re-entry after exit. -/
theorem context_reenter_after_exit_not_prevented :
    context_enter context_init = .ok ⟨true, false⟩ ∧
    context_enter ⟨true, false⟩ = .error "already entered" ∧
    context_exit ⟨true, false⟩ = ⟨false, false⟩ ∧
    context_enter (context_exit ⟨true, false⟩) = .ok ⟨true, false⟩ :=
  ⟨rfl, rfl, rfl, rfl⟩

/-- A `HandlerContext` whose guarded lifetime is not active (`_entered` is
false). -/
def ctx_unentered : Ctx := ⟨true, false, [], [], ⟨[], []⟩⟩

/-- Claim C7 (evaluation of the code at the failing input): the engine never
calls `check_context_entered`, so a creation against a non-entered context
silently reads and writes that context's cache instead of failing fatally:
the same request that `check_context_entered` would reject completes and
records a cache entry. -/
theorem cache_ops_on_unentered_context_not_guarded :
    check_context_entered ctx_unentered.entered
      = .error "Attempt to operate on unentered context" ∧
    create env_plain_handler 5 ctx_unentered (plain_dep 7) (.marker (.unresolved_state 0)) [] none St.empty
      = (⟨[], [(0, ⟨7, 0⟩, plain_dep 7, false)], [], [], [0], 1⟩, .ok ⟨7, 0⟩) :=
  ⟨rfl, rfl⟩

/-- Environment for the override scenario: factory 0 is the original
(producing values of type tag 7), factory 1 the replacement (type tag 8). -/
def env_override : Env := fun fid =>
  if fid = 0 then plain_factory .handler 7 [] else plain_factory .handler 8 []

/-- An entered handler context whose root's override table maps factory 0 to
factory 1. -/
def ctx_override : Ctx := ⟨true, true, [], [], ⟨[(0, 1)], []⟩⟩

/-- Claim C1 (evaluation of the code at the failing input): although the
root's override table maps factory 0 to factory 1, resolving a dependency on
factory 0 invokes factory 0 itself (the invocation log is `[0]` and the value
carries factory 0's type tag): the stored override table is never consulted by
the creation engine. -/
theorem override_table_ignored :
    assoc_find ctx_override.root.override_factories 0 = some 1 ∧
    create env_override 5 ctx_override (plain_dep 7) (.marker (.unresolved_state 0)) [] none St.empty
      = (⟨[], [(0, ⟨7, 0⟩, plain_dep 7, false)], [], [], [0], 1⟩, .ok ⟨7, 0⟩) :=
  ⟨rfl, rfl⟩

/-- Environment for the cross-scope scenario: factory 0 is handler-scoped and
plain; factory 1 is app-scoped and depends on factory 0. -/
def env_cross : Env := fun fid =>
  if fid = 0 then plain_factory .handler 7 []
  else plain_factory .app 8 [(plain_dep 7, .factory_ref 0)]

/-- Claim C8, counterexample: when the handler-scoped factory 0's value is
already in the request cache, constructing the app-scoped factory 1 (which
depends on factory 0) succeeds — the engine serves the cached request-scoped
value to the app-scoped construction instead of failing with a cross-scope
violation. -/
theorem app_dep_on_cached_handler_value_not_rejected :
    get_factory_scope env_cross 1 = .app ∧
    get_factory_scope env_cross 0 = .handler ∧
    (create env_cross 10 handler_ctx (plain_dep 7) (.marker (.unresolved_state 0)) [] none St.empty).2
      = .ok ⟨7, 0⟩ ∧
    (create env_cross 10 handler_ctx (plain_dep 8) (.marker (.unresolved_state 1)) [] none
        (create env_cross 10 handler_ctx (plain_dep 7) (.marker (.unresolved_state 0)) [] none St.empty).1).2
      = .ok ⟨8, 1⟩ :=
  ⟨rfl, rfl, rfl, rfl⟩

/-- Claim C8 as amended: on a cache miss, a handler-scoped factory whose
immediate parent in the construction chain is app-scoped is rejected by
`create_from_factory` with the cross-scope violation, before the factory is
invoked (state unchanged). -/
theorem handler_dep_with_app_parent_rejected_on_miss (env : Env) (fuel : Nat)
    (ctx : Ctx) (dep : DepType) (fid : FId) (explicit : Bool) (stack : List FId)
    (p : FId) (s : St)
    (hnotin : fid ∉ stack)
    (hscope : get_factory_scope env fid = .handler)
    (hprev : get_factory_scope env p = .app) :
    create_from_factory env (fuel + 1) ctx dep fid explicit stack (some p) s
      = (s, .error (.handler_scope_dep_requested_from_app_scope dep explicit)) := by
  by_cases hc : ctx.is_handler
  · simp [create_from_factory, hnotin, hscope, hprev, cross_scope_parent, hc]
  · simp [create_from_factory, hnotin, hscope, hc]

/-- Witness for the amended C8 at a concrete input: factory 0 (handler-scoped)
requested with app-scoped factory 1 as the chain parent. -/
theorem handler_dep_with_app_parent_rejected_on_miss_witness :
    (0 : FId) ∉ [1] ∧ get_factory_scope env_cross 0 = .handler ∧
    get_factory_scope env_cross 1 = .app ∧
    create_from_factory env_cross 1 handler_ctx (plain_dep 7) 0 true [1] (some 1) St.empty
      = (St.empty, .error (.handler_scope_dep_requested_from_app_scope (plain_dep 7) true)) :=
  ⟨by decide, rfl, rfl,
    handler_dep_with_app_parent_rejected_on_miss env_cross 0 handler_ctx (plain_dep 7) 0 true
      [1] 1 St.empty (by decide) rfl rfl⟩

/-- Claim C4: on a cache hit whose recorded action-performed flag is compared
with what this request's shape analysis demands, agreement returns the cached
value unchanged, and disagreement fails with exactly one of the two mutually
exclusive consistency errors, each carrying the conflicting request `dep` and
the originally recorded request `rq`. -/
theorem cached_value_form_reconciliation (env : Env) (fuel : Nat) (ctx : Ctx)
    (dep : DepType) (fid : FId) (explicit : Bool) (stack : List FId)
    (prev : Option FId) (s : St) (v : Val) (rq : DepType) (a need : Bool)
    (hreach : get_factory_scope env fid = .app ∨ ctx.is_handler = true)
    (hhit : assoc_find (cache_of s (get_factory_scope env fid)) fid = some (v, rq, a))
    (hneed : dep_need_action_any env fid dep = .ok need) :
    create_from_factory_cached env (fuel + 1) ctx dep fid explicit stack prev s
      = if need = a then (s, .ok v)
        else (s, .error (if need
            then .value_from_factory_were_requested_unresolved dep rq fid
            else .value_from_factory_already_resolved dep rq fid)) := by
  simp only [create_from_factory_cached, hhit, hneed, render_cache_other_form_error]
  split
  · rename_i hbad
    exfalso
    rcases hreach with h | h
    · rw [h] at hbad
      exact absurd hbad.1 (by decide)
    · exact hbad.2 (by simp [h])
  · rfl

/-- Environment with one handler-scoped coroutine factory (declared await
depth 1, returning an awaitable) producing values of type tag 5. -/
def env_async : Env := fun _ => ⟨.handler, 1, 0, 0, true, false, false, 5, []⟩

/-- Cache state after factory 0 of `env_async` was resolved as a plain
`Depends[Foo]`: value awaited, action-performed recorded as `true`. -/
def st_async_hit : St := ⟨[], [(0, ⟨5, 0⟩, plain_dep 5, true)], [], [], [0], 1⟩

/-- Witness for C4 at concrete inputs: re-requesting the unwrapped form agrees
with the recorded flag and returns the cached value; requesting the wrapped
form (`Depends[Awaitable[Foo]]`, await depth 1) disagrees and fails with
`ValueFromFactoryAlreadyResolved` carrying both requested forms. -/
theorem cached_value_form_reconciliation_witness :
    (create_from_factory_cached env_async 1 handler_ctx (plain_dep 5) 0 true [] none st_async_hit
      = (st_async_hit, .ok ⟨5, 0⟩)) ∧
    (create_from_factory_cached env_async 1 handler_ctx ⟨5, 1, 0, 0⟩ 0 true [] none st_async_hit
      = (st_async_hit, .error
          (.value_from_factory_already_resolved ⟨5, 1, 0, 0⟩ (plain_dep 5) 0))) := by
  constructor
  · have h := cached_value_form_reconciliation env_async 0 handler_ctx (plain_dep 5) 0 true
      [] none st_async_hit ⟨5, 0⟩ (plain_dep 5) true true (Or.inr rfl) rfl rfl
    simpa using h
  · have h := cached_value_form_reconciliation env_async 0 handler_ctx ⟨5, 1, 0, 0⟩ 0 true
      [] none st_async_hit ⟨5, 0⟩ (plain_dep 5) true false (Or.inr rfl) rfl rfl
    simpa using h


/-! Machinery for the idempotent-caching claim. -/

/-- Number of occurrences of a factory id in the invocation log. -/
def count_occ (fid : FId) : List FId → Nat
  | [] => 0
  | g :: rest => (if g = fid then 1 else 0) + count_occ fid rest

theorem count_occ_append (fid : FId) (l₁ l₂ : List FId) :
    count_occ fid (l₁ ++ l₂) = count_occ fid l₁ + count_occ fid l₂ := by
  induction l₁ with
  | nil => simp [count_occ]
  | cons g rest ih => simp [count_occ, ih]; omega

/-- A factory whose runtime return value kind is consistent with its declared
shape: whenever an axis declares at least one wrapper, the returned value
actually is of that wrapper kind (a producer honouring its declared return
annotation, the producer contract of the spec). -/
def consistent_factory (f : Factory) : Prop :=
  (1 ≤ f.await_depth → f.ret_awaitable = true) ∧
  (1 ≤ f.cm_depth → f.ret_cm = true) ∧
  (1 ≤ f.acm_depth → f.ret_async_cm = true)

instance (f : Factory) : Decidable (consistent_factory f) := by
  unfold consistent_factory; infer_instance

/-- The factory is absent from the cache its scope owns. -/
def uncached (env : Env) (fid : FId) (s : St) : Prop :=
  assoc_find (cache_of s (get_factory_scope env fid)) fid = none

theorem cache_of_set_log (s : St) (sc : Scope) (l : List FId) (t : Nat) :
    cache_of { s with inv_log := l, next_tok := t } sc = cache_of s sc := by
  cases sc <;> rfl

theorem cache_of_push_exit (s : St) (sc sc' : Scope) (g : FId) :
    cache_of (push_exit s sc' g) sc = cache_of s sc := by
  cases sc <;> cases sc' <;> rfl

theorem inv_log_push_exit (s : St) (sc : Scope) (g : FId) :
    (push_exit s sc g).inv_log = s.inv_log := by
  cases sc <;> rfl

theorem inv_log_cache_insert (s : St) (sc : Scope) (g : FId) (e : CacheEntry) :
    (cache_insert s sc g e).inv_log = s.inv_log := by
  cases sc <;> rfl

theorem assoc_find_cache_insert_ne (env : Env) (s : St) (sc : Scope) (g fid : FId)
    (e : CacheEntry) (h : g ≠ fid) :
    assoc_find (cache_of (cache_insert s sc g e) (get_factory_scope env fid)) fid
      = assoc_find (cache_of s (get_factory_scope env fid)) fid := by
  cases hsc : get_factory_scope env fid <;> cases sc <;>
    simp [cache_insert, cache_of, assoc_find, h]

theorem assoc_find_cache_insert_self (s : St) (sc : Scope) (g : FId) (e : CacheEntry) :
    assoc_find (cache_of (cache_insert s sc g e) sc) g = some e := by
  cases sc <;> simp [cache_insert, cache_of, assoc_find]

/-- A factory already in the construction chain can never be successfully
constructed (the cycle check fires first). -/
theorem create_from_factory_stack_mem_ne_ok (env : Env) (fuel : Nat) (ctx : Ctx)
    (dep : DepType) (fid : FId) (explicit : Bool) (stack : List FId) (prev : Option FId)
    (s s₂ : St) (w : Val) (act : Bool) (hmem : fid ∈ stack) :
    create_from_factory env fuel ctx dep fid explicit stack prev s ≠ (s₂, .ok (w, act)) := by
  cases fuel with
  | zero => simp [create_from_factory]
  | succ m => simp [create_from_factory, hmem]

/-- While a factory `fid` sits in the construction chain and is not yet
cached, no successful sub-resolution can invoke it or cache it: the
invocation count of `fid` is unchanged and `fid` stays uncached. -/
theorem protected_no_invoke (env : Env) (fid : FId) : ∀ fuel : Nat,
    (∀ ctx dep don stack prev s s' v,
      fid ∈ stack → uncached env fid s →
      create env fuel ctx dep don stack prev s = (s', .ok v) →
      count_occ fid s'.inv_log = count_occ fid s.inv_log ∧ uncached env fid s')
    ∧ (∀ ctx dep g explicit stack prev s s' v,
      fid ∈ stack → uncached env fid s →
      create_from_factory_cached env fuel ctx dep g explicit stack prev s = (s', .ok v) →
      count_occ fid s'.inv_log = count_occ fid s.inv_log ∧ uncached env fid s')
    ∧ (∀ ctx dep g explicit stack prev s s' v act,
      fid ∈ stack → uncached env fid s →
      create_from_factory env fuel ctx dep g explicit stack prev s = (s', .ok (v, act)) →
      count_occ fid s'.inv_log = count_occ fid s.inv_log ∧ uncached env fid s')
    ∧ (∀ ctx owner ds stack prev s s' u,
      fid ∈ stack → uncached env fid s →
      resolve_fn_deps env fuel ctx owner ds stack prev s = (s', .ok u) →
      count_occ fid s'.inv_log = count_occ fid s.inv_log ∧ uncached env fid s') := by
  intro fuel
  induction fuel with
  | zero =>
    refine ⟨?_, ?_, ?_, ?_⟩ <;> intros <;>
      simp_all [create, create_from_factory_cached, create_from_factory, resolve_fn_deps]
  | succ n ih =>
    obtain ⟨ih_top, ih_cached, ih_new, ih_deps⟩ := ih
    refine ⟨?_, ?_, ?_, ?_⟩
    -- create
    · intro ctx dep don stack prev s s' v hm hu hrun
      cases don with
      | by_name nm =>
        simp only [create] at hrun
        cases hl : lookup_implicit_factory ctx nm with
        | some g =>
          simp only [hl] at hrun
          cases hc : create_from_factory_cached env n ctx dep g false stack prev s with
          | mk s₂ r =>
            simp only [hc] at hrun
            cases r with
            | error e => simp at hrun
            | ok w =>
              simp only at hrun
              split at hrun
              · cases hrun
                exact ih_cached ctx dep g false stack prev s _ _ hm hu hc
              · exact absurd hrun (by simp)
        | none =>
          simp only [hl] at hrun
          cases hb : assoc_find ctx.root.bootstrap_values nm with
          | some w =>
            simp only [hb] at hrun
            split at hrun
            · cases hrun
              exact ⟨rfl, hu⟩
            · exact absurd hrun (by simp)
          | none =>
            simp only [hb] at hrun
            simp at hrun
      | marker st =>
        cases st with
        | resolved_state w => simp [create] at hrun
        | unresolved_state g =>
          simp only [create] at hrun
          exact ih_cached ctx dep g true stack prev s s' v hm hu hrun
    -- create_from_factory_cached
    · intro ctx dep g explicit stack prev s s' v hm hu hrun
      simp only [create_from_factory_cached] at hrun
      split at hrun
      · exact absurd hrun (by simp)
      · cases hfind : assoc_find (cache_of s (get_factory_scope env g)) g with
        | some entry =>
          obtain ⟨w, rq, a⟩ := entry
          simp only [hfind] at hrun
          cases hna : dep_need_action_any env g dep with
          | error e =>
            simp only [hna] at hrun
            simp at hrun
          | ok need =>
            simp only [hna] at hrun
            split at hrun
            · cases hrun
              exact ⟨rfl, hu⟩
            · exact absurd hrun (by simp)
        | none =>
          simp only [hfind] at hrun
          cases hnew : create_from_factory env n ctx dep g explicit stack prev s with
          | mk s₂ r =>
            simp only [hnew] at hrun
            cases r with
            | error e => simp at hrun
            | ok p =>
              obtain ⟨w, act⟩ := p
              simp only at hrun
              have hg : g ≠ fid := by
                intro h
                exact create_from_factory_stack_mem_ne_ok env n ctx dep g explicit stack prev
                  s s₂ w act (h ▸ hm) hnew
              obtain ⟨hcnt, hunc⟩ := ih_new ctx dep g explicit stack prev s s₂ w act hm hu hnew
              cases hrun
              refine ⟨?_, ?_⟩
              · rw [inv_log_cache_insert]
                exact hcnt
              · unfold uncached
                rw [assoc_find_cache_insert_ne env s₂ _ g fid _ hg]
                exact hunc
    -- create_from_factory
    · intro ctx dep g explicit stack prev s s' v act hm hu hrun
      simp only [create_from_factory] at hrun
      split at hrun
      · exact absurd hrun (by simp)
      · rename_i hgstack
        split at hrun
        · exact absurd hrun (by simp)
        · split at hrun
          · exact absurd hrun (by simp)
          · cases hd : resolve_fn_deps env n ctx g (env g).deps (stack ++ [g]) (some g) s with
            | mk s₂ r =>
              simp only [hd] at hrun
              cases r with
              | error e => simp at hrun
              | ok u =>
                simp only at hrun
                have hg : g ≠ fid := fun h => hgstack (h ▸ hm)
                obtain ⟨hcnt, hunc⟩ := ih_deps ctx g (env g).deps (stack ++ [g]) (some g) s s₂ u
                  (List.mem_append_left _ hm) hu hd
                cases h1 : (if (env g).ret_awaitable then dep_need_await env g dep
                    else Except.ok false) with
                | error e =>
                  simp only [h1] at hrun
                  simp at hrun
                | ok b1 =>
                  simp only [h1] at hrun
                  cases b1 with
                  | true =>
                    simp only at hrun
                    cases hrun
                    refine ⟨?_, ?_⟩
                    · simp [count_occ_append, count_occ, hg, hcnt]
                    · unfold uncached
                      rw [cache_of_set_log]
                      exact hunc
                  | false =>
                    simp only at hrun
                    cases h2 : (if (env g).ret_cm then dep_need_enter env g dep
                        else Except.ok false) with
                    | error e =>
                      simp only [h2] at hrun
                      simp at hrun
                    | ok b2 =>
                      simp only [h2] at hrun
                      cases b2 with
                      | true =>
                        simp only at hrun
                        cases hrun
                        refine ⟨?_, ?_⟩
                        · rw [inv_log_push_exit]
                          simp [count_occ_append, count_occ, hg, hcnt]
                        · unfold uncached
                          rw [cache_of_push_exit, cache_of_set_log]
                          exact hunc
                      | false =>
                        simp only at hrun
                        cases h3 : (if (env g).ret_async_cm then dep_need_aenter env g dep
                            else Except.ok false) with
                        | error e =>
                          simp only [h3] at hrun
                          simp at hrun
                        | ok b3 =>
                          simp only [h3] at hrun
                          cases b3 with
                          | true =>
                            simp only at hrun
                            cases hrun
                            refine ⟨?_, ?_⟩
                            · rw [inv_log_push_exit]
                              simp [count_occ_append, count_occ, hg, hcnt]
                            · unfold uncached
                              rw [cache_of_push_exit, cache_of_set_log]
                              exact hunc
                          | false =>
                            simp only at hrun
                            cases hrun
                            refine ⟨?_, ?_⟩
                            · simp [count_occ_append, count_occ, hg, hcnt]
                            · unfold uncached
                              rw [cache_of_set_log]
                              exact hunc
    -- resolve_fn_deps
    · intro ctx owner ds stack prev s s' u hm hu hrun
      cases ds with
      | nil =>
        simp only [resolve_fn_deps] at hrun
        cases hrun
        exact ⟨rfl, hu⟩
      | cons hd_pair rest =>
        obtain ⟨d, src⟩ := hd_pair
        cases src with
        | factory_ref f =>
          simp only [resolve_fn_deps] at hrun
          cases hc : create env n ctx d (.marker (.unresolved_state f)) stack prev s with
          | mk s₂ r =>
            simp only [hc] at hrun
            cases r with
            | error e => simp at hrun
            | ok w =>
              simp only at hrun
              obtain ⟨c1, u1⟩ := ih_top ctx d _ stack prev s s₂ w hm hu hc
              obtain ⟨c2, u2⟩ := ih_deps ctx owner rest stack prev s₂ s' u hm u1 hrun
              exact ⟨c2.trans c1, u2⟩
        | name_ref nm =>
          simp only [resolve_fn_deps] at hrun
          cases hc : create env n ctx d (.by_name nm) stack prev s with
          | mk s₂ r =>
            simp only [hc] at hrun
            cases r with
            | error e => simp at hrun
            | ok w =>
              simp only at hrun
              obtain ⟨c1, u1⟩ := ih_top ctx d _ stack prev s s₂ w hm hu hc
              obtain ⟨c2, u2⟩ := ih_deps ctx owner rest stack prev s₂ s' u hm u1 hrun
              exact ⟨c2.trans c1, u2⟩
/-- Inversion of `any(_dep_need_action(...))` succeeding: all three axes
succeeded and the result is their disjunction. -/
theorem dep_need_action_any_ok_inv (env : Env) (fid : FId) (dep : DepType) (b : Bool)
    (h : dep_need_action_any env fid dep = .ok b) :
    ∃ eb ab wb, dep_need_enter env fid dep = .ok eb ∧ dep_need_aenter env fid dep = .ok ab ∧
      dep_need_await env fid dep = .ok wb ∧ b = (eb || ab || wb) := by
  unfold dep_need_action_any at h
  cases he : dep_need_enter env fid dep with
  | error e =>
    rw [he] at h
    simp only [bind, Except.bind, Functor.map, Except.map] at h
    simp at h
  | ok eb =>
    rw [he] at h
    cases ha : dep_need_aenter env fid dep with
    | error e =>
      rw [ha] at h
      simp only [bind, Except.bind, Functor.map, Except.map] at h
      simp at h
    | ok ab =>
      rw [ha] at h
      cases hw : dep_need_await env fid dep with
      | error e =>
        rw [hw] at h
        simp only [bind, Except.bind, Functor.map, Except.map] at h
        simp at h
      | ok wb =>
        rw [hw] at h
        simp only [bind, Except.bind, Functor.map, Except.map] at h
        refine ⟨eb, ab, wb, rfl, rfl, rfl, ?_⟩
        injection h with h'
        subst h'
        cases eb <;> cases ab <;> cases wb <;> rfl

/-- For a consistent factory, a successful construction performs the unwrap
action exactly when the cache-probe recomputation demands it. -/
theorem create_from_factory_ok_action (env : Env) (fuel : Nat) (ctx : Ctx) (dep : DepType)
    (fid : FId) (explicit : Bool) (stack : List FId) (prev : Option FId) (s s' : St)
    (v : Val) (act b : Bool)
    (hcons : consistent_factory (env fid))
    (hneed : dep_need_action_any env fid dep = .ok b)
    (hrun : create_from_factory env fuel ctx dep fid explicit stack prev s = (s', .ok (v, act))) :
    act = b := by
  obtain ⟨hca, hcc, hcm⟩ := hcons
  obtain ⟨eb, ab, wb, he, ha, hw, hb⟩ := dep_need_action_any_ok_inv env fid dep b hneed
  have hwf : (env fid).ret_awaitable = false → wb = false := by
    intro hflag
    have hd0 : (env fid).await_depth = 0 := by
      by_contra hne
      have := hca (by omega)
      rw [this] at hflag
      cases hflag
    have := ((decide_need_action_spec ((env fid).await_depth - (dep.await_depth : Int)) fid dep).1 wb).mp hw
    cases wb with
    | false => rfl
    | true => simp [hd0] at this; omega
  have hef : (env fid).ret_cm = false → eb = false := by
    intro hflag
    have hd0 : (env fid).cm_depth = 0 := by
      by_contra hne
      have := hcc (by omega)
      rw [this] at hflag
      cases hflag
    have := ((decide_need_action_spec ((env fid).cm_depth - (dep.cm_depth : Int)) fid dep).1 eb).mp he
    cases eb with
    | false => rfl
    | true => simp [hd0] at this; omega
  have haf : (env fid).ret_async_cm = false → ab = false := by
    intro hflag
    have hd0 : (env fid).acm_depth = 0 := by
      by_contra hne
      have := hcm (by omega)
      rw [this] at hflag
      cases hflag
    have := ((decide_need_action_spec ((env fid).acm_depth - (dep.acm_depth : Int)) fid dep).1 ab).mp ha
    cases ab with
    | false => rfl
    | true => simp [hd0] at this; omega
  have h1 : (if (env fid).ret_awaitable then dep_need_await env fid dep else Except.ok false)
      = .ok wb := by
    cases hflag : (env fid).ret_awaitable with
    | true => simp [hw]
    | false => simp [hwf hflag]
  have h2 : (if (env fid).ret_cm then dep_need_enter env fid dep else Except.ok false)
      = .ok eb := by
    cases hflag : (env fid).ret_cm with
    | true => simp [he]
    | false => simp [hef hflag]
  have h3 : (if (env fid).ret_async_cm then dep_need_aenter env fid dep else Except.ok false)
      = .ok ab := by
    cases hflag : (env fid).ret_async_cm with
    | true => simp [ha]
    | false => simp [haf hflag]
  cases fuel with
  | zero => simp [create_from_factory] at hrun
  | succ n =>
    simp only [create_from_factory] at hrun
    split at hrun
    · exact absurd hrun (by simp)
    · split at hrun
      · exact absurd hrun (by simp)
      · split at hrun
        · exact absurd hrun (by simp)
        · cases hd : resolve_fn_deps env n ctx fid (env fid).deps (stack ++ [fid]) (some fid) s with
          | mk s₂ r =>
            simp only [hd] at hrun
            cases r with
            | error e => simp at hrun
            | ok u =>
              simp only [h1, h2, h3] at hrun
              cases wb with
              | true =>
                simp only at hrun
                cases hrun
                simp [hb]
              | false =>
                simp only at hrun
                cases eb with
                | true =>
                  simp only at hrun
                  cases hrun
                  simp [hb]
                | false =>
                  simp only at hrun
                  cases ab with
                  | true =>
                    simp only at hrun
                    cases hrun
                    simp [hb]
                  | false =>
                    simp only at hrun
                    cases hrun
                    simp [hb]

/-- A successful cache-miss construction logs exactly one new invocation of
the constructed factory. -/
theorem create_from_factory_ok_count (env : Env) (fuel : Nat) (ctx : Ctx) (dep : DepType)
    (fid : FId) (explicit : Bool) (stack : List FId) (prev : Option FId) (s s' : St)
    (v : Val) (act : Bool)
    (hmiss : uncached env fid s)
    (hrun : create_from_factory env fuel ctx dep fid explicit stack prev s = (s', .ok (v, act))) :
    count_occ fid s'.inv_log = count_occ fid s.inv_log + 1 := by
  cases fuel with
  | zero => simp [create_from_factory] at hrun
  | succ n =>
    simp only [create_from_factory] at hrun
    split at hrun
    · exact absurd hrun (by simp)
    · split at hrun
      · exact absurd hrun (by simp)
      · split at hrun
        · exact absurd hrun (by simp)
        · cases hd : resolve_fn_deps env n ctx fid (env fid).deps (stack ++ [fid]) (some fid) s with
          | mk s₂ r =>
            simp only [hd] at hrun
            cases r with
            | error e => simp at hrun
            | ok u =>
              have hmem : fid ∈ stack ++ [fid] := by simp
              obtain ⟨hcnt, _⟩ := (protected_no_invoke env fid n).2.2.2 ctx fid (env fid).deps
                (stack ++ [fid]) (some fid) s s₂ u hmem hmiss hd
              cases h1 : (if (env fid).ret_awaitable then dep_need_await env fid dep
                  else Except.ok false) with
              | error e => simp only [h1] at hrun; simp at hrun
              | ok b1 =>
                simp only [h1] at hrun
                cases b1 with
                | true =>
                  simp only at hrun
                  cases hrun
                  simp [count_occ_append, count_occ, hcnt]
                | false =>
                  simp only at hrun
                  cases h2 : (if (env fid).ret_cm then dep_need_enter env fid dep
                      else Except.ok false) with
                  | error e => simp only [h2] at hrun; simp at hrun
                  | ok b2 =>
                    simp only [h2] at hrun
                    cases b2 with
                    | true =>
                      simp only at hrun
                      cases hrun
                      rw [inv_log_push_exit]
                      simp [count_occ_append, count_occ, hcnt]
                    | false =>
                      simp only at hrun
                      cases h3 : (if (env fid).ret_async_cm then dep_need_aenter env fid dep
                          else Except.ok false) with
                      | error e => simp only [h3] at hrun; simp at hrun
                      | ok b3 =>
                        simp only [h3] at hrun
                        cases b3 with
                        | true =>
                          simp only at hrun
                          cases hrun
                          rw [inv_log_push_exit]
                          simp [count_occ_append, count_occ, hcnt]
                        | false =>
                          simp only at hrun
                          cases hrun
                          simp [count_occ_append, count_occ, hcnt]
/-- Claim C2: within one request lifetime, resolving a (consistently declared)
producer twice with the same requested shape hits the cache the second time:
the identical value object is returned both times, the second call leaves the
state untouched, and the producer is invoked exactly once across the pair of
calls (the invocation log gains exactly one occurrence during the first call
and none during the second).  The cache is keyed by the producer's identity
`fid`, mirroring the `dict` keyed by the factory object. -/
theorem producer_resolved_twice_cached_once
    (env : Env) (fuel fuel' : Nat) (ctx : Ctx) (dep : DepType) (fid : FId)
    (explicit explicit' : Bool) (s s₁ : St) (v : Val) (b : Bool)
    (hcons : consistent_factory (env fid))
    (hneed : dep_need_action_any env fid dep = .ok b)
    (hmiss : uncached env fid s)
    (hrun : create_from_factory_cached env (fuel + 1) ctx dep fid explicit [] none s
      = (s₁, .ok v)) :
    create_from_factory_cached env (fuel' + 1) ctx dep fid explicit' [] none s₁ = (s₁, .ok v)
    ∧ count_occ fid s₁.inv_log = count_occ fid s.inv_log + 1 := by
  have hmiss' : assoc_find (cache_of s (get_factory_scope env fid)) fid = none := hmiss
  simp only [create_from_factory_cached] at hrun
  split at hrun
  · exact absurd hrun (by simp)
  · rename_i hguard
    simp only [hmiss'] at hrun
    cases hnew : create_from_factory env fuel ctx dep fid explicit [] none s with
    | mk s₂ r =>
      simp only [hnew] at hrun
      cases r with
      | error e => simp at hrun
      | ok p =>
        obtain ⟨w, act⟩ := p
        simp only at hrun
        have hact : act = b := create_from_factory_ok_action env fuel ctx dep fid explicit
          [] none s s₂ w act b hcons hneed hnew
        have hcount := create_from_factory_ok_count env fuel ctx dep fid explicit
          [] none s s₂ w act hmiss hnew
        cases hrun
        constructor
        · simp only [create_from_factory_cached]
          rw [if_neg hguard]
          rw [assoc_find_cache_insert_self]
          simp only [hneed]
          rw [hact]
          simp
        · rw [inv_log_cache_insert]
          exact hcount

/-- Witness for C2 at a concrete input: a plain handler-scoped factory
resolved twice (first explicitly, then again) from an empty state; the second
resolution returns the same value, changes nothing, and the log holds one
invocation. -/
theorem producer_resolved_twice_cached_once_witness :
    consistent_factory (env_plain_handler 0) ∧
    dep_need_action_any env_plain_handler 0 (plain_dep 7) = .ok false ∧
    uncached env_plain_handler 0 St.empty ∧
    create_from_factory_cached env_plain_handler 4 handler_ctx (plain_dep 7) 0 true [] none St.empty
      = (⟨[], [(0, ⟨7, 0⟩, plain_dep 7, false)], [], [], [0], 1⟩, .ok ⟨7, 0⟩) ∧
    (create_from_factory_cached env_plain_handler 1 handler_ctx (plain_dep 7) 0 false [] none
        ⟨[], [(0, ⟨7, 0⟩, plain_dep 7, false)], [], [], [0], 1⟩
      = (⟨[], [(0, ⟨7, 0⟩, plain_dep 7, false)], [], [], [0], 1⟩, .ok ⟨7, 0⟩)
      ∧ count_occ 0 [0] = count_occ 0 ([] : List FId) + 1) := by
  refine ⟨by decide, rfl, rfl, rfl, ?_⟩
  have h := producer_resolved_twice_cached_once env_plain_handler 3 0 handler_ctx (plain_dep 7)
    0 true false St.empty ⟨[], [(0, ⟨7, 0⟩, plain_dep 7, false)], [], [], [0], 1⟩ ⟨7, 0⟩ false
    (by decide) rfl rfl rfl
  simpa using h

end TypedDI
